import Mathlib

/-!
A verification development for the enjaz assessment-analysis core.

The Python modules `enjaz/data_ingest.py`, `enjaz/data_ingest_lms.py`,
`enjaz/date_filter.py`, `enjaz/analysis.py` and `enjaz/recommendations.py`
are shallowly embedded below.  Modelling conventions:

* A spreadsheet cell is a `RawCell`.  Python cells are dynamically typed, so a
  `RawCell` carries the results of the coercions the source applies to it:
  `isNa` models `pd.isna(...)`, `text` models `str(...)` (pandas renders a
  missing value as the string "nan"), `asNum` models a `float(...)` attempt
  (`none` when it raises), and `asDate` models the result of the due-date
  normalizer on the cell (`parse_due_date` / `parse_lms_date` string handling
  is abstracted into this field; their `None`-propagation is kept explicit).
* Dates are day numbers (`Int`); only their ordering matters to the source.
* Python floats that hold completion percentages are always produced by
  `round(100 * completed / total_due, 2)`, i.e. they carry two decimals.  The
  model represents them exactly as integers in hundredths of a percentage
  point ("centi-percent"): the Python value `89.99` is the integer `8999`.
  `pct n` scales a whole percentage threshold into this representation, and
  `rateCenti` performs Python's round-half-to-even division.
* Python dicts are insertion-ordered association lists (`upsertWith`).
* Fields of the parsed sheet data that no theorem below touches (the
  subject/grade/section identity derived from the sheet name, the week label)
  are omitted from the embedded records.
-/

/-- A spreadsheet cell together with the coercions Python applies to it
(see the module conventions above). -/
structure RawCell where
  isNa : Bool
  text : String
  asNum : Option Int
  asDate : Option Int
deriving DecidableEq, Repr

/-- A missing cell: `pd.isna` holds and `str(...)` renders it as "nan". -/
def naCell : RawCell := ⟨true, "nan", none, none⟩

/-- A plain text cell on which `float(...)` raises. -/
def strCell (s : String) : RawCell := ⟨false, s, none, none⟩

/-- A numeric cell; `v` is the value of `float(...)` in centi units. -/
def numCell (v : Int) (s : String) : RawCell := ⟨false, s, some v, none⟩

/-- A cell holding a date recognised by the due-date normalizer. -/
def dateCell (d : Int) (s : String) : RawCell := ⟨false, s, none, some d⟩

/-- Model of Python `str.strip` (drop leading/trailing whitespace). -/
def trimOff (l : List Char) : List Char :=
  ((l.dropWhile Char.isWhitespace).reverse.dropWhile Char.isWhitespace).reverse

/-- Model of Python `str.strip` on strings. -/
def pyStrip (s : String) : String := ⟨trimOff s.data⟩

/-- Model of Python `str.upper` (ASCII case map; Arabic letters are fixed). -/
def pyUpper (s : String) : String := ⟨s.data.map Char.toUpper⟩

/-- Model of Python `str.lower`. -/
def pyLower (s : String) : String := ⟨s.data.map Char.toLower⟩

/-- Whether `pat` starts the character list `l`. -/
def leadsList : List Char → List Char → Bool
  | [], _ => true
  | _ :: _, [] => false
  | a :: as, b :: bs => a = b && leadsList as bs

/-- Whether `pat` occurs inside `l`. -/
def hasSub (pat : List Char) : List Char → Bool
  | [] => leadsList pat []
  | c :: rest => leadsList pat (c :: rest) || hasSub pat rest

/-- Model of Python `pat in s` substring containment. -/
def pyContains (s pat : String) : Bool := hasSub pat.data s.data

/-- Collapse whitespace runs to single spaces (the `re.sub(r"\s+", " ", ·)`
step); `pendingWs` records that a run is open. -/
def collapseWs : List Char → Bool → List Char
  | [], _ => []
  | c :: rest, pendingWs =>
    if c.isWhitespace then collapseWs rest true
    else if pendingWs then ' ' :: c :: collapseWs rest false
    else c :: collapseWs rest false

/-- `normalize_arabic_text` from `enjaz/data_ingest.py` (also defined
verbatim in `enjaz/data_ingest_lms.py`): missing values become the empty
string, otherwise strip then collapse internal whitespace. -/
def normalize_arabic_text (c : RawCell) : String :=
  if c.isNa then ""
  else ⟨collapseWs (c.text.data.dropWhile Char.isWhitespace) false⟩

/-- Round the exact fraction `num / den` (`den > 0`) to the nearest integer,
ties to even — Python's `round` (the source applies it to a float; the model
uses the exact rational value). -/
def roundHalfEvenDiv (num : Int) (den : Nat) : Int :=
  let f := Int.fdiv num den
  let r := Int.fmod num den
  if 2 * r < (den : Int) then f
  else if (den : Int) < 2 * r then f + 1
  else if f % 2 = 0 then f else f + 1

/-- `round(100 * completed / total_due, 2)` in centi-percent units. -/
def rateCenti (completed total_due : Nat) : Int :=
  roundHalfEvenDiv ((10000 * completed : Nat) : Int) total_due

/-- A whole percentage threshold in centi-percent units. -/
def pct (n : Int) : Int := n * 100

/-- A raw sheet grid: a list of rows of cells (`df` read with `header=None`). -/
abbrev Grid := List (List RawCell)

/-- Row `r` of a grid (`df.iloc[r]`); missing rows are empty. -/
def rowAt (g : Grid) (r : Nat) : List RawCell := (g.drop r).headD []

/-- Cell `c` of a row; cells beyond the row's width are missing (`NaN`). -/
def cellIn (row : List RawCell) (c : Nat) : RawCell := (row.drop c).headD naCell

/-- `df.shape[1]`: the grid's column count. -/
def ncols (g : Grid) : Nat := g.foldr (fun row m => max row.length m) 0

/-- `find_student_name_column` (`data_ingest.py`): first header containing
"اسم" or containing "Student" after lower-casing (the source lower-cases the
header and then searches for the capitalised token, exactly as embedded
here), else column 0. -/
def findNameColAux : List RawCell → Nat → Option Nat
  | [], _ => none
  | h :: rest, idx =>
    if pyContains h.text "اسم" || pyContains (pyLower h.text) "Student" then some idx
    else findNameColAux rest (idx + 1)

/-- `find_student_name_column` applied to header row 0 of a grid. -/
def find_student_name_column (g : Grid) : Nat :=
  (findNameColAux (rowAt g 0) 0).getD 0

/-- Whether a header carries one of the aggregate/overall marker tokens. -/
def overallMarker (h : RawCell) : Bool :=
  pyContains h.text "Overall" || pyContains h.text "overall" ||
  pyContains h.text "إجمالي" || pyContains h.text "المجموع"

/-- `find_assessment_start_column` (`data_ingest.py`): start at index 7, and
for any overall-marker column strictly before index 7 advance to just past
it (never below 7). -/
def find_assessment_start_column (g : Grid) : Nat :=
  ((rowAt g 0).enum).foldl
    (fun start_col p =>
      if p.1 < 7 && overallMarker p.2 then max start_col (p.1 + 1) else start_col)
    7

/-- Keyword list of `is_excluded_column` (`data_ingest.py`). -/
def exclude_keywords : List String :=
  ["overall", "unnamed", "notes", "ملاحظات", "إجمالي", "المجموع", "nan"]

/-- `is_excluded_column` (`data_ingest.py`): the lower-cased header contains
one of the administrative keywords. -/
def is_excluded_column (header : RawCell) : Bool :=
  exclude_keywords.any (fun k => pyContains (pyLower header.text) k)

/-- `parse_due_date` (`data_ingest.py`): `None` for missing cells, otherwise
the normalizer's result (string-format handling abstracted into `asDate`). -/
def parse_due_date (c : RawCell) : Option Int :=
  if c.isNa then none else c.asDate

/-- One assessment column: grid column index, title, parsed due date. -/
structure AssessmentCol where
  col_idx : Nat
  title : String
  due_date : Option Int
deriving DecidableEq, Repr

/-- The assessment-column scan of `parse_excel_file` (`data_ingest.py`
lines 230-245): columns from the start index onward, administrative columns
dropped, due dates read from row 2. -/
def assessment_columns (g : Grid) : List AssessmentCol :=
  let start := find_assessment_start_column g
  (List.range' start (ncols g - start)).filterMap fun col_idx =>
    let header := cellIn (rowAt g 0) col_idx
    if is_excluded_column header then none
    else some
      { col_idx
        title := if header.isNa then "Assessment " ++ toString col_idx else header.text
        due_date := parse_due_date (cellIn (rowAt g 2) col_idx) }

/-- One entry of a student's per-cell detail list (`student_assessments` in
`data_ingest.py`; missing cells are never stored there). -/
structure AssessmentDetail where
  title : String
  due_date : Option Int
  value : RawCell
deriving DecidableEq, Repr

/-- The per-student counters of the cell loop in `parse_excel_file`. -/
structure CountAcc where
  total_due : Nat
  completed : Nat
  not_submitted : Nat
  assessments : List AssessmentDetail
deriving DecidableEq, Repr

/-- The status sentinel vocabulary `['M', 'I', 'AB', 'X']`. -/
def sentinel_tokens : List String := ["M", "I", "AB", "X"]

/-- One iteration of the per-cell loop of `parse_excel_file` (`data_ingest.py`
lines 264-296): skip columns whose due date is missing or after `today`;
otherwise count the cell, a missing cell or a sentinel token as not
submitted, anything else as completed. -/
def ingCellStep (today : Int) (row : List RawCell) (acc : CountAcc)
    (a : AssessmentCol) : CountAcc :=
  match a.due_date with
  | none => acc
  | some due =>
    if today < due then acc
    else
      let acc1 : CountAcc := { acc with total_due := acc.total_due + 1 }
      let cell := cellIn row a.col_idx
      if cell.isNa then { acc1 with not_submitted := acc1.not_submitted + 1 }
      else
        let value_str := pyUpper (pyStrip cell.text)
        let acc2 : CountAcc :=
          { acc1 with assessments := acc1.assessments ++ [⟨a.title, some due, cell⟩] }
        if value_str ∈ sentinel_tokens then
          { acc2 with not_submitted := acc2.not_submitted + 1 }
        else
          { acc2 with completed := acc2.completed + 1 }

/-- A `StudentAssessmentRecord` as produced by `parse_excel_file`
(`completion_rate` in centi-percent). -/
structure StudentRecord where
  student_name : String
  total_due : Nat
  completed : Nat
  not_submitted : Nat
  completion_rate : Int
  has_due : Bool
  assessments : List AssessmentDetail
deriving DecidableEq, Repr

/-- The body of the student-row loop of `parse_excel_file` (`data_ingest.py`
lines 250-314): normalize the name, skip blank names, run the cell loop,
derive `has_due` and the (rounded) completion rate. -/
def ingProcessRow (today : Int) (cols : List AssessmentCol) (student_col : Nat)
    (row : List RawCell) : Option StudentRecord :=
  let student_name := normalize_arabic_text (cellIn row student_col)
  if student_name = "" then none
  else
    let acc := cols.foldl (ingCellStep today row) ⟨0, 0, 0, []⟩
    some
      { student_name
        total_due := acc.total_due
        completed := acc.completed
        not_submitted := acc.not_submitted
        completion_rate := if 0 < acc.total_due then rateCenti acc.completed acc.total_due else 0
        has_due := decide (0 < acc.total_due)
        assessments := acc.assessments }

/-- A sheet of an uploaded workbook, before parsing. -/
structure NamedSheet where
  sheet_name : String
  grid : Grid
deriving DecidableEq, Repr

/-- Parsed per-sheet facts (identity fields omitted, see conventions). -/
structure SheetData where
  sheet_name : String
  students : List StudentRecord
deriving DecidableEq, Repr

/-- The warning printed by `parse_excel_file` for a structurally short sheet. -/
def insufficientRowsWarning (name : String) : String :=
  "Warning: Sheet '" ++ name ++ "' has insufficient rows, skipping."

/-- `parse_excel_file` (`data_ingest.py`): reject a sheet that is empty or
has fewer than 4 rows with a warning and continue the batch; otherwise locate
the columns, parse the student rows and keep the sheet when it produced at
least one record.  Returns (sheet facts, warnings). -/
def parse_excel_file_model (today : Int) : List NamedSheet → List SheetData × List String
  | [] => ([], [])
  | s :: rest =>
    let acc := parse_excel_file_model today rest
    if s.grid.length = 0 || ncols s.grid = 0 || s.grid.length < 4 then
      (acc.1, insufficientRowsWarning s.sheet_name :: acc.2)
    else
      let student_col := find_student_name_column s.grid
      let cols := assessment_columns s.grid
      let students := (s.grid.drop 3).filterMap (ingProcessRow today cols student_col)
      if students.isEmpty then acc
      else (⟨s.sheet_name, students⟩ :: acc.1, acc.2)

/-- `parse_lms_date` (`data_ingest_lms.py`): `None` for missing cells, the
literal "-" and blank strings; otherwise the normalizer's result. -/
def parse_lms_date (c : RawCell) : Option Int :=
  if c.isNa || c.text = "-" || pyStrip c.text = "" then none else c.asDate

/-- The assessment-column scan of `parse_lms_excel` (`data_ingest_lms.py`
lines 193-210): fixed start at column 7, columns with a blank or missing
header skipped, due dates read from row 2 via `parse_lms_date`. -/
def lms_assessment_columns (g : Grid) : List AssessmentCol :=
  (List.range' 7 (ncols g - 7)).filterMap fun col_idx =>
    let header := cellIn (rowAt g 0) col_idx
    if header.isNa || pyStrip header.text = "" then none
    else some
      { col_idx
        title := pyStrip header.text
        due_date := parse_lms_date (cellIn (rowAt g 2) col_idx) }

/-- One entry of the per-cell detail list stored by `parse_lms_excel`
(the source stores the due date as an ISO string; the model keeps the date). -/
structure LmsDetail where
  title : String
  due_date : Int
  value : String
  status : String
deriving DecidableEq, Repr

/-- The per-student counters of the cell loop in `parse_lms_excel`. -/
structure LmsAcc where
  total_due : Nat
  completed : Nat
  not_submitted : Nat
  assessments : List LmsDetail
deriving DecidableEq, Repr

/-- One iteration of the per-cell loop of `parse_lms_excel`
(`data_ingest_lms.py` lines 229-270): skip columns whose due date is missing,
after `today`, or before `start_date` when one is given; otherwise count the
cell and record a status: blank cells are `empty` (no counter), sentinel
tokens count as not submitted, values parsing as a number in [0, 100] count
as completed, everything else is `invalid` (no counter). -/
def lmsCellStep (today : Int) (start_date : Option Int) (row : List RawCell)
    (acc : LmsAcc) (a : AssessmentCol) : LmsAcc :=
  match a.due_date with
  | none => acc
  | some due =>
    if today < due then acc
    else if start_date.elim false (fun sd => decide (due < sd)) then acc
    else
      let acc1 : LmsAcc := { acc with total_due := acc.total_due + 1 }
      let cell := cellIn row a.col_idx
      let step :=
        if cell.isNa || pyStrip cell.text ∈ ["", "-"] then ("empty", acc1)
        else if pyUpper cell.text ∈ sentinel_tokens then
          (pyUpper cell.text, { acc1 with not_submitted := acc1.not_submitted + 1 })
        else
          match cell.asNum with
          | some score =>
            if 0 ≤ score ∧ score ≤ pct 100 then
              ("completed", { acc1 with completed := acc1.completed + 1 })
            else ("invalid", acc1)
          | none => ("invalid", acc1)
      let acc2 := step.2
      { acc2 with assessments := acc2.assessments ++
          [⟨a.title, due, if cell.isNa then "" else cell.text, step.1⟩] }

/-- A student record as produced by `parse_lms_excel`. -/
structure LmsStudentRecord where
  student_name : String
  total_due : Nat
  completed : Nat
  not_submitted : Nat
  completion_rate : Int
  has_due : Bool
  assessments : List LmsDetail
deriving DecidableEq, Repr

/-- The body of the student-row loop of `parse_lms_excel`
(`data_ingest_lms.py` lines 215-288): the name is read from column 0,
blank names and the literal header text "Students" are skipped. -/
def lmsProcessRow (today : Int) (start_date : Option Int)
    (cols : List AssessmentCol) (row : List RawCell) : Option LmsStudentRecord :=
  let student_name := normalize_arabic_text (cellIn row 0)
  if student_name = "" || student_name = "Students" then none
  else
    let acc := cols.foldl (lmsCellStep today start_date row) ⟨0, 0, 0, []⟩
    some
      { student_name
        total_due := acc.total_due
        completed := acc.completed
        not_submitted := acc.not_submitted
        completion_rate := if 0 < acc.total_due then rateCenti acc.completed acc.total_due else 0
        has_due := decide (0 < acc.total_due)
        assessments := acc.assessments }

/-- Parsed per-sheet facts of the LMS parser (identity fields omitted). -/
structure LmsSheetData where
  sheet_name : String
  students : List LmsStudentRecord
deriving DecidableEq, Repr

/-- The message printed by `parse_lms_excel` for a structurally short sheet. -/
def tooFewRowsWarning (name : String) : String :=
  "Skipping sheet '" ++ name ++ "': too few rows"

/-- `parse_lms_excel` (`data_ingest_lms.py`): reject a sheet with fewer than
5 rows with a message and continue the batch; otherwise parse the student
rows (from row 4) and keep the sheet when it produced at least one record. -/
def parse_lms_excel_model (today : Int) (start_date : Option Int) :
    List NamedSheet → List LmsSheetData × List String
  | [] => ([], [])
  | s :: rest =>
    let acc := parse_lms_excel_model today start_date rest
    if s.grid.length < 5 then
      (acc.1, tooFewRowsWarning s.sheet_name :: acc.2)
    else
      let cols := lms_assessment_columns s.grid
      let students := (s.grid.drop 4).filterMap (lmsProcessRow today start_date cols)
      if students.isEmpty then acc
      else (⟨s.sheet_name, students⟩ :: acc.1, acc.2)

/-- One iteration of the recount loop of `filter_by_date_range`
(`date_filter.py` lines 45-73) over a stored per-cell detail: entries outside
the window are skipped; inside it, a missing value or "M" counts as not
submitted, the excluded tokens I/AB/X are removed from the denominator again
("don't count"), anything else counts as completed. -/
def filterCellStep (start_date end_date : Option Int) (acc : Nat × Nat × Nat)
    (a : AssessmentDetail) : Nat × Nat × Nat :=
  match a.due_date with
  | none => acc
  | some due =>
    if start_date.elim false (fun sd => decide (due < sd)) then acc
    else if end_date.elim false (fun ed => decide (ed < due)) then acc
    else
      let t := acc.1 + 1
      if a.value.isNa then (t, acc.2.1, acc.2.2 + 1)
      else
        let value_str := pyUpper (pyStrip a.value.text)
        if value_str = "M" then (t, acc.2.1, acc.2.2 + 1)
        else if value_str ∈ ["I", "AB", "X"] then (t - 1, acc.2.1, acc.2.2)
        else (t, acc.2.1 + 1, acc.2.2)

/-- The per-student recount of `filter_by_date_range` (`date_filter.py`):
records without stored detail keep their original counters, otherwise all
metrics are recomputed from the in-window details. -/
def filter_student (start_date end_date : Option Int) (r : StudentRecord) : StudentRecord :=
  if r.assessments.isEmpty then r
  else
    let c := r.assessments.foldl (filterCellStep start_date end_date) (0, 0, 0)
    { r with
        total_due := c.1
        completed := c.2.1
        not_submitted := c.2.2
        completion_rate := if 0 < c.1 then rateCenti c.2.1 c.1 else 0
        has_due := decide (0 < c.1) }

/-- `filter_by_date_range` (`date_filter.py`): recompute every student record
of every sheet against the window. -/
def filter_by_date_range (all_data : List SheetData) (start_date end_date : Option Int) :
    List SheetData :=
  all_data.map fun sd => { sd with students := sd.students.map (filter_student start_date end_date) }

/-- `BAND_LABELS` (`analysis.py`): the six tier labels, highest first. -/
def BAND_LABELS : List String :=
  ["البلاتينية", "الذهبية", "الفضية", "البرونزية", "يحتاج إلى تطوير", "لا يستفيد من النظام"]

/-- `get_band` (`analysis.py`): threshold lookup, highest first, inclusive
lower bounds (thresholds 90/80/70/50/1 percent, in centi units); `None`
maps to the sentinel "N/A". -/
def get_band : Option Int → String
  | none => "N/A"
  | some completion_rate =>
    if pct 90 ≤ completion_rate then "البلاتينية"
    else if pct 80 ≤ completion_rate then "الذهبية"
    else if pct 70 ≤ completion_rate then "الفضية"
    else if pct 50 ≤ completion_rate then "البرونزية"
    else if pct 1 ≤ completion_rate then "يحتاج إلى تطوير"
    else "لا يستفيد من النظام"

/-- `get_band_from_percentage` (`recommendations.py`): the competing
threshold table (90/75/60/40, then strictly-positive, then zero). -/
def get_band_from_percentage : Option Int → String
  | none => "N/A"
  | some percentage =>
    if pct 90 ≤ percentage then "البلاتينية"
    else if pct 75 ≤ percentage then "الذهبية"
    else if pct 60 ≤ percentage then "الفضية"
    else if pct 40 ≤ percentage then "البرونزية"
    else if 0 < percentage then "يحتاج إلى تحسين"
    else "غير مستفيد"

/-- One per-subject entry of a student's overall stats. -/
structure SubjectEntry where
  subject : String
  completion_rate : Int
  band : String
deriving DecidableEq, Repr

/-- The accumulating per-student entry of `calculate_student_overall_stats`. -/
structure OverallAcc where
  total_due : Nat
  total_completed : Nat
  subjects : List SubjectEntry
deriving DecidableEq, Repr

/-- Insertion-ordered dictionary update: apply `f` to the entry at `k`,
inserting `f v0` at the end when `k` is absent (Python dict semantics). -/
def upsertWith {β : Type} (k : String) (f : β → β) (v0 : β) :
    List (String × β) → List (String × β)
  | [] => [(k, f v0)]
  | (k', v) :: rest =>
    if k' = k then (k', f v) :: rest else (k', v) :: upsertWith k f v0 rest

/-- The dictionary-update body of `calculate_student_overall_stats`
(`analysis.py` lines 130-136): add the record's counters into the student's
entry and append the per-subject breakdown. -/
def statsAdd (sheet_name : String) (r : StudentRecord) (st : OverallAcc) : OverallAcc :=
  { total_due := st.total_due + r.total_due
    total_completed := st.total_completed + r.completed
    subjects := st.subjects ++
      [⟨sheet_name, r.completion_rate, get_band (some r.completion_rate)⟩] }

/-- The loop body of `calculate_student_overall_stats` (`analysis.py`
lines 115-136): skip records with `has_due` false, otherwise apply
`statsAdd` to the student's entry (zero-initialised on first sight). -/
def addStudentStats (sheet_name : String) (m : List (String × OverallAcc))
    (r : StudentRecord) : List (String × OverallAcc) :=
  if r.has_due = false then m
  else upsertWith r.student_name (statsAdd sheet_name r) ⟨0, 0, []⟩ m

/-- A finished `StudentOverallFacts` entry. -/
structure OverallStats where
  total_due : Nat
  total_completed : Nat
  subjects : List SubjectEntry
  overall_completion_rate : Int
  overall_band : String
deriving DecidableEq, Repr

/-- The second loop of `calculate_student_overall_stats` (`analysis.py`
lines 139-145): derive the overall rate and band, with the "N/A" sentinel
when the student accumulated no due assessments. -/
def finalizeOverall (st : OverallAcc) : OverallStats :=
  if 0 < st.total_due then
    { total_due := st.total_due
      total_completed := st.total_completed
      subjects := st.subjects
      overall_completion_rate := rateCenti st.total_completed st.total_due
      overall_band := get_band (some (rateCenti st.total_completed st.total_due)) }
  else
    { total_due := st.total_due
      total_completed := st.total_completed
      subjects := st.subjects
      overall_completion_rate := 0
      overall_band := "N/A" }

/-- `calculate_student_overall_stats` (`analysis.py`): group the eligible
records of the batch by student name, then finalize each entry. -/
def calculate_student_overall_stats (all_data : List SheetData) :
    List (String × OverallStats) :=
  (all_data.foldl (fun m sd => sd.students.foldl (addStudentStats sd.sheet_name) m) []).map
    (fun p => (p.1, finalizeOverall p.2))

/-- The loop body of the `band_distribution` computation of
`calculate_weekly_kpis` (`analysis.py` lines 243-247): count a student's
overall band, excluding the "N/A" sentinel. -/
def bandCountStep (band_counts : List (String × Nat)) (p : String × OverallStats) :
    List (String × Nat) :=
  if p.2.overall_band = "N/A" then band_counts
  else upsertWith p.2.overall_band (· + 1) 0 band_counts

/-- The `band_distribution` computation of `calculate_weekly_kpis`
(`analysis.py` lines 240-247): count each student's overall band over the
`student_overall` map, excluding the "N/A" sentinel. -/
def weekly_band_distribution (all_data : List SheetData) : List (String × Nat) :=
  (calculate_student_overall_stats all_data).foldl bandCountStep []

/-- Total of the counts of a band distribution. -/
def sumCounts (bc : List (String × Nat)) : Nat := (bc.map Prod.snd).sum

/-- The key list of an association-list dictionary. -/
def keysOf {β : Type} (m : List (String × β)) : List String := m.map Prod.fst

/-- Association-list lookup (Python `dict` access). -/
def lookupA {β : Type} (k : String) : List (String × β) → Option β
  | [] => none
  | (k', v) :: rest => if k' = k then some v else lookupA k rest

/-- The batch flattened to (sheet name, record) pairs, in iteration order. -/
def batchPairs (all_data : List SheetData) : List (String × StudentRecord) :=
  all_data.flatMap fun sd => sd.students.map fun r => (sd.sheet_name, r)

/-- `addStudentStats` uncurried over a (sheet name, record) pair. -/
def statsStep (m : List (String × OverallAcc)) (p : String × StudentRecord) :
    List (String × OverallAcc) :=
  addStudentStats p.1 m p.2

/-- Accumulated `total_due` of student `a` in an in-progress overall map. -/
def dueAt (a : String) (m : List (String × OverallAcc)) : Nat :=
  ((lookupA a m).map OverallAcc.total_due).getD 0

/-- Accumulated `total_completed` of student `a`. -/
def compAt (a : String) (m : List (String × OverallAcc)) : Nat :=
  ((lookupA a m).map OverallAcc.total_completed).getD 0

/-- Formalisation of the spec's eligibility test (§4.2): the due-date cell
parses to a date, that date is at most the cutoff, and at least the window
start when one is configured.  Stated from the spec's words, to be compared
with the counting loops of the two parsers. -/
def eligibleSpec (today : Int) (start_date : Option Int) (due : Option Int) : Prop :=
  ∃ d, due = some d ∧ d ≤ today ∧ ∀ sd, start_date = some sd → sd ≤ d

/-- A due-date cell holding the day before the cutoff used in the fixtures. -/
def yesterdayCell : RawCell := dateCell (-1) "Oct 1"

/-- Fixture for `parse_excel_file`: one student, two assessment columns both
due the day before the cutoff, cell values "M" and "I" (§8 scenario 2). -/
def miSheet : NamedSheet :=
  { sheet_name := "Math 03/1"
    grid :=
      [ [strCell "اسم الطالب", strCell "", strCell "", strCell "", strCell "",
         strCell "", strCell "", strCell "HW1", strCell "HW2"]
      , [strCell "", strCell "", strCell "", strCell "", strCell "",
         strCell "", strCell "", strCell "", strCell ""]
      , [strCell "", strCell "", strCell "", strCell "", strCell "",
         strCell "", strCell "", yesterdayCell, yesterdayCell]
      , [strCell "أحمد", strCell "", strCell "", strCell "", strCell "",
         strCell "", strCell "", strCell "M", strCell "I"] ] }

/-- The per-cell detail `parse_excel_file` stores for `miSheet`'s student. -/
def miDetails : List AssessmentDetail :=
  [⟨"HW1", some (-1), strCell "M"⟩, ⟨"HW2", some (-1), strCell "I"⟩]

/-- The record `parse_excel_file` produces for `miSheet`'s student. -/
def miRecord : StudentRecord := ⟨"أحمد", 2, 0, 2, 0, true, miDetails⟩

/-- The sheet facts `parse_excel_file` produces for `miSheet`. -/
def miSheetData : SheetData := ⟨"Math 03/1", [miRecord]⟩

/-- Header row of the LMS fixtures: one assessment column at index 7. -/
def lmsRow0 : List RawCell :=
  [strCell "", strCell "", strCell "", strCell "", strCell "",
   strCell "", strCell "", strCell "HW1"]

/-- A blank filler row for the LMS fixtures. -/
def lmsPad : List RawCell :=
  [strCell "", strCell "", strCell "", strCell "", strCell "",
   strCell "", strCell "", strCell ""]

/-- Fixture for `parse_lms_excel`: one eligible assessment whose cell is
missing (`NaN`). -/
def lmsBlankSheet : NamedSheet :=
  { sheet_name := "اللغة العربية 03 1"
    grid :=
      [ lmsRow0, lmsPad
      , [strCell "", strCell "", strCell "", strCell "", strCell "",
         strCell "", strCell "", yesterdayCell]
      , lmsPad
      , [strCell "أحمد", strCell "", strCell "", strCell "", strCell "",
         strCell "", strCell "", naCell] ] }

/-- Fixture for `parse_lms_excel`: one eligible assessment whose cell holds
free text (not numeric, not a sentinel token). -/
def lmsTextSheet : NamedSheet :=
  { sheet_name := "الحوسبة 03 1"
    grid :=
      [ lmsRow0, lmsPad
      , [strCell "", strCell "", strCell "", strCell "", strCell "",
         strCell "", strCell "", yesterdayCell]
      , lmsPad
      , [strCell "أحمد", strCell "", strCell "", strCell "", strCell "",
         strCell "", strCell "", strCell "ممتاز"] ] }

/-- Fixture batch for the rollup: the same student completing 1 of 1 in
"Math" and 2 of 2 in "Science" (§8 scenario 5). -/
def mathScienceBatch : List SheetData :=
  [ ⟨"Math", [⟨"طالب", 1, 1, 0, pct 100, true, []⟩]⟩
  , ⟨"Science", [⟨"طالب", 2, 2, 0, pct 100, true, []⟩]⟩ ]

/-- The expected overall entry for `mathScienceBatch`'s student. -/
def mathScienceOverall : OverallStats :=
  ⟨3, 3, [⟨"Math", 10000, "البلاتينية"⟩, ⟨"Science", 10000, "البلاتينية"⟩],
   10000, "البلاتينية"⟩

/-- Fixture: a structurally invalid sheet with only 3 rows. -/
def shortSheet : NamedSheet := ⟨"Empty", [[strCell "x"], [], []]⟩

theorem mem_keysOf_upsertWith {β : Type} (k : String) (f : β → β) (v0 : β)
    (m : List (String × β)) (a : String) :
    a ∈ keysOf (upsertWith k f v0 m) ↔ a ∈ keysOf m ∨ a = k := by
  induction m with
  | nil => simp [upsertWith, keysOf]
  | cons kv rest ih =>
    obtain ⟨k', v⟩ := kv
    by_cases h : k' = k
    · subst h
      simp [upsertWith, keysOf]
      tauto
    · simp only [upsertWith, if_neg h, keysOf, List.map_cons, List.mem_cons] at *
      tauto

theorem nodup_keysOf_upsertWith {β : Type} (k : String) (f : β → β) (v0 : β)
    (m : List (String × β)) (h : (keysOf m).Nodup) :
    (keysOf (upsertWith k f v0 m)).Nodup := by
  induction m with
  | nil => simp [upsertWith, keysOf]
  | cons kv rest ih =>
    obtain ⟨k', v⟩ := kv
    simp only [keysOf, List.map_cons, List.nodup_cons] at h
    by_cases hk : k' = k
    · subst hk
      simpa [upsertWith, keysOf] using h
    · simp only [upsertWith, if_neg hk, keysOf, List.map_cons, List.nodup_cons]
      refine ⟨?_, ih h.2⟩
      intro hmem
      rcases (mem_keysOf_upsertWith k f v0 rest k').mp hmem with h1 | h1
      · exact h.1 h1
      · exact hk h1

theorem lookupA_upsertWith_self {β : Type} (k : String) (f : β → β) (v0 : β)
    (m : List (String × β)) :
    lookupA k (upsertWith k f v0 m) = some (f ((lookupA k m).getD v0)) := by
  induction m with
  | nil => simp [upsertWith, lookupA]
  | cons kv rest ih =>
    obtain ⟨k', v⟩ := kv
    by_cases h : k' = k
    · subst h; simp [upsertWith, lookupA]
    · simp [upsertWith, lookupA, h, ih]

theorem lookupA_upsertWith_ne {β : Type} (a k : String) (f : β → β) (v0 : β)
    (m : List (String × β)) (h : k ≠ a) :
    lookupA a (upsertWith k f v0 m) = lookupA a m := by
  induction m with
  | nil => simp [upsertWith, lookupA, h]
  | cons kv rest ih =>
    obtain ⟨k', v⟩ := kv
    by_cases hk : k' = k
    · subst hk; simp [upsertWith, lookupA, h]
    · simp [upsertWith, lookupA, hk, ih]

theorem forall_val_upsertWith {β : Type} (P : β → Prop) (k : String) (f : β → β)
    (v0 : β) (m : List (String × β)) (hm : ∀ kv ∈ m, P kv.2) (h0 : P (f v0))
    (hf : ∀ v, P v → P (f v)) :
    ∀ kv ∈ upsertWith k f v0 m, P kv.2 := by
  induction m with
  | nil => simpa [upsertWith] using h0
  | cons kv rest ih =>
    obtain ⟨k', v⟩ := kv
    simp only [List.mem_cons, forall_eq_or_imp] at hm
    by_cases h : k' = k
    · subst h
      simp only [upsertWith, if_pos rfl]
      intro kv hkv
      rcases List.mem_cons.mp hkv with h1 | h1
      · subst h1; exact hf v hm.1
      · exact hm.2 kv h1
    · simp only [upsertWith, if_neg h]
      intro kv hkv
      rcases List.mem_cons.mp hkv with h1 | h1
      · subst h1; exact hm.1
      · exact ih hm.2 kv h1

theorem sumCounts_upsertWith (b : String) (bc : List (String × Nat)) :
    sumCounts (upsertWith b (· + 1) 0 bc) = sumCounts bc + 1 := by
  induction bc with
  | nil => simp [upsertWith, sumCounts]
  | cons kv rest ih =>
    obtain ⟨k', v⟩ := kv
    by_cases h : k' = b
    · subst h; simp [upsertWith, sumCounts]; omega
    · simp [upsertWith, sumCounts, h] at *
      omega

theorem get_band_mem (x : Int) : get_band (some x) ∈ BAND_LABELS := by
  simp only [get_band, BAND_LABELS]
  split_ifs <;> simp

theorem na_not_mem_BAND_LABELS : "N/A" ∉ BAND_LABELS := by decide

theorem ingCellStep_sum (today : Int) (row : List RawCell) (acc : CountAcc)
    (a : AssessmentCol)
    (h : acc.completed + acc.not_submitted = acc.total_due) :
    (ingCellStep today row acc a).completed + (ingCellStep today row acc a).not_submitted =
      (ingCellStep today row acc a).total_due := by
  unfold ingCellStep
  rcases a.due_date with _ | due
  · exact h
  · dsimp only
    split_ifs <;> (try simp) <;> omega

theorem ingFold_sum (today : Int) (row : List RawCell) (cols : List AssessmentCol) :
    ∀ acc : CountAcc, acc.completed + acc.not_submitted = acc.total_due →
      (cols.foldl (ingCellStep today row) acc).completed +
        (cols.foldl (ingCellStep today row) acc).not_submitted =
        (cols.foldl (ingCellStep today row) acc).total_due := by
  induction cols with
  | nil => intro acc h; exact h
  | cons a cols ih =>
    intro acc h
    exact ih _ (ingCellStep_sum today row acc a h)

theorem lmsCellStep_sum (today : Int) (start_date : Option Int) (row : List RawCell)
    (acc : LmsAcc) (a : AssessmentCol)
    (h : acc.completed + acc.not_submitted ≤ acc.total_due) :
    (lmsCellStep today start_date row acc a).completed +
      (lmsCellStep today start_date row acc a).not_submitted ≤
      (lmsCellStep today start_date row acc a).total_due := by
  unfold lmsCellStep
  rcases a.due_date with _ | due
  · exact h
  · dsimp only
    split_ifs <;> (try split) <;> (try split_ifs) <;> (try simp) <;> omega

theorem lmsFold_sum (today : Int) (start_date : Option Int) (row : List RawCell)
    (cols : List AssessmentCol) :
    ∀ acc : LmsAcc, acc.completed + acc.not_submitted ≤ acc.total_due →
      (cols.foldl (lmsCellStep today start_date row) acc).completed +
        (cols.foldl (lmsCellStep today start_date row) acc).not_submitted ≤
        (cols.foldl (lmsCellStep today start_date row) acc).total_due := by
  induction cols with
  | nil => intro acc h; exact h
  | cons a cols ih =>
    intro acc h
    exact ih _ (lmsCellStep_sum today start_date row acc a h)

theorem ingProcessRow_name (today : Int) (cols : List AssessmentCol) (scol : Nat)
    (row : List RawCell) (r : StudentRecord)
    (h : ingProcessRow today cols scol row = some r) :
    r.student_name = normalize_arabic_text (cellIn row scol) ∧
      normalize_arabic_text (cellIn row scol) ≠ "" := by
  by_cases hname : normalize_arabic_text (cellIn row scol) = ""
  · simp [ingProcessRow, hname] at h
  · simp only [ingProcessRow, if_neg hname, Option.some.injEq] at h
    subst h
    exact ⟨rfl, hname⟩

theorem ingProcessRow_sum (today : Int) (cols : List AssessmentCol) (scol : Nat)
    (row : List RawCell) (r : StudentRecord)
    (h : ingProcessRow today cols scol row = some r) :
    r.completed + r.not_submitted = r.total_due := by
  by_cases hname : normalize_arabic_text (cellIn row scol) = ""
  · simp [ingProcessRow, hname] at h
  · simp only [ingProcessRow, if_neg hname, Option.some.injEq] at h
    subst h
    exact ingFold_sum today row cols ⟨0, 0, 0, []⟩ rfl

theorem lmsProcessRow_name (today : Int) (start_date : Option Int)
    (cols : List AssessmentCol) (row : List RawCell) (r : LmsStudentRecord)
    (h : lmsProcessRow today start_date cols row = some r) :
    r.student_name = normalize_arabic_text (cellIn row 0) ∧
      r.student_name ≠ "" ∧ r.student_name ≠ "Students" := by
  by_cases hname : normalize_arabic_text (cellIn row 0) = "" ∨
      normalize_arabic_text (cellIn row 0) = "Students"
  · rcases hname with hname | hname <;> simp [lmsProcessRow, hname] at h
  · push_neg at hname
    simp only [lmsProcessRow, Option.some.injEq,
      Bool.or_eq_true, decide_eq_true_eq, hname.1, hname.2, or_self, if_false] at h
    subst h
    exact ⟨rfl, hname.1, hname.2⟩

theorem lmsProcessRow_sum (today : Int) (start_date : Option Int)
    (cols : List AssessmentCol) (row : List RawCell) (r : LmsStudentRecord)
    (h : lmsProcessRow today start_date cols row = some r) :
    r.completed + r.not_submitted ≤ r.total_due := by
  by_cases hname : normalize_arabic_text (cellIn row 0) = "" ∨
      normalize_arabic_text (cellIn row 0) = "Students"
  · rcases hname with hname | hname <;> simp [lmsProcessRow, hname] at h
  · push_neg at hname
    simp only [lmsProcessRow, Option.some.injEq,
      Bool.or_eq_true, decide_eq_true_eq, hname.1, hname.2, or_self, if_false] at h
    subst h
    exact lmsFold_sum today start_date row cols ⟨0, 0, 0, []⟩ (by simp)

theorem parse_excel_prop (P : StudentRecord → Prop)
    (hP : ∀ today cols scol row r, ingProcessRow today cols scol row = some r → P r)
    (today : Int) :
    ∀ (sheets : List NamedSheet), ∀ sd ∈ (parse_excel_file_model today sheets).1,
      ∀ r ∈ sd.students, P r := by
  intro sheets
  induction sheets with
  | nil => intro sd h; simp [parse_excel_file_model] at h
  | cons s rest ih =>
    intro sd hsd r hr
    simp only [parse_excel_file_model] at hsd
    split at hsd
    · exact ih sd hsd r hr
    · split at hsd
      · exact ih sd hsd r hr
      · simp only [List.mem_cons] at hsd
        rcases hsd with h1 | h1
        · subst h1
          obtain ⟨row, hrow, hsome⟩ := List.mem_filterMap.mp hr
          exact hP _ _ _ _ _ hsome
        · exact ih sd h1 r hr

theorem parse_lms_prop (P : LmsStudentRecord → Prop)
    (hP : ∀ today start_date cols row r,
      lmsProcessRow today start_date cols row = some r → P r)
    (today : Int) (start_date : Option Int) :
    ∀ (sheets : List NamedSheet),
      ∀ sd ∈ (parse_lms_excel_model today start_date sheets).1,
      ∀ r ∈ sd.students, P r := by
  intro sheets
  induction sheets with
  | nil => intro sd h; simp [parse_lms_excel_model] at h
  | cons s rest ih =>
    intro sd hsd r hr
    simp only [parse_lms_excel_model] at hsd
    split at hsd
    · exact ih sd hsd r hr
    · split at hsd
      · exact ih sd hsd r hr
      · simp only [List.mem_cons] at hsd
        rcases hsd with h1 | h1
        · subst h1
          obtain ⟨row, hrow, hsome⟩ := List.mem_filterMap.mp hr
          exact hP _ _ _ _ _ hsome
        · exact ih sd h1 r hr

theorem overallAcc_eq (all_data : List SheetData) :
    ∀ m0, all_data.foldl
        (fun m sd => sd.students.foldl (addStudentStats sd.sheet_name) m) m0 =
      (batchPairs all_data).foldl statsStep m0 := by
  induction all_data with
  | nil => intro m0; simp [batchPairs]
  | cons sd rest ih =>
    intro m0
    simp only [List.foldl_cons, batchPairs, List.flatMap_cons, List.foldl_append,
      List.foldl_map]
    rw [ih]
    rfl

theorem calc_overall_eq (all_data : List SheetData) :
    calculate_student_overall_stats all_data =
      ((batchPairs all_data).foldl statsStep []).map
        (fun p => (p.1, finalizeOverall p.2)) := by
  unfold calculate_student_overall_stats
  rw [overallAcc_eq]


theorem statsStep_skip (m : List (String × OverallAcc)) (p : String × StudentRecord)
    (hb : p.2.has_due = false) : statsStep m p = m := by
  simp [statsStep, addStudentStats, hb]

theorem statsStep_add (m : List (String × OverallAcc)) (p : String × StudentRecord)
    (hb : p.2.has_due = true) :
    statsStep m p = upsertWith p.2.student_name (statsAdd p.1 p.2) ⟨0, 0, []⟩ m := by
  simp [statsStep, addStudentStats, hb]

theorem mem_keysOf_statsFold (a : String) :
    ∀ (ps : List (String × StudentRecord)) (m : List (String × OverallAcc)),
      a ∈ keysOf (ps.foldl statsStep m) ↔
        a ∈ keysOf m ∨ ∃ p ∈ ps, p.2.student_name = a ∧ p.2.has_due = true := by
  intro ps
  induction ps with
  | nil => simp
  | cons p ps ih =>
    intro m
    simp only [List.foldl_cons, ih, List.mem_cons]
    rcases hb : p.2.has_due with _ | _
    · rw [statsStep_skip m p hb]
      constructor
      · rintro (h | ⟨q, hq, hname, hdue⟩)
        · exact Or.inl h
        · exact Or.inr ⟨q, Or.inr hq, hname, hdue⟩
      · rintro (h | ⟨q, (rfl | hq), hname, hdue⟩)
        · exact Or.inl h
        · rw [hb] at hdue; cases hdue
        · exact Or.inr ⟨q, hq, hname, hdue⟩
    · rw [statsStep_add m p hb]
      rw [show keysOf (upsertWith p.2.student_name (statsAdd p.1 p.2) ⟨0, 0, []⟩ m) =
          keysOf (upsertWith p.2.student_name (statsAdd p.1 p.2) ⟨0, 0, []⟩ m) from rfl]
      constructor
      · rintro (h | ⟨q, hq, hname, hdue⟩)
        · rcases (mem_keysOf_upsertWith _ _ _ m a).mp h with h1 | h1
          · exact Or.inl h1
          · exact Or.inr ⟨p, Or.inl rfl, h1.symm, hb⟩
        · exact Or.inr ⟨q, Or.inr hq, hname, hdue⟩
      · rintro (h | ⟨q, (rfl | hq), hname, hdue⟩)
        · exact Or.inl ((mem_keysOf_upsertWith _ _ _ m a).mpr (Or.inl h))
        · exact Or.inl ((mem_keysOf_upsertWith _ _ _ m a).mpr (Or.inr hname.symm))
        · exact Or.inr ⟨q, hq, hname, hdue⟩

theorem nodup_keysOf_statsFold :
    ∀ (ps : List (String × StudentRecord)) (m : List (String × OverallAcc)),
      (keysOf m).Nodup → (keysOf (ps.foldl statsStep m)).Nodup := by
  intro ps
  induction ps with
  | nil => intro m h; exact h
  | cons p ps ih =>
    intro m h
    simp only [List.foldl_cons]
    apply ih
    rcases hb : p.2.has_due with _ | _
    · rw [statsStep_skip m p hb]; exact h
    · rw [statsStep_add m p hb]
      exact nodup_keysOf_upsertWith _ _ _ m h

theorem pos_statsFold :
    ∀ (ps : List (String × StudentRecord)) (m : List (String × OverallAcc)),
      (∀ kv ∈ m, 0 < kv.2.total_due) →
      (∀ p ∈ ps, p.2.has_due = true → 0 < p.2.total_due) →
      ∀ kv ∈ ps.foldl statsStep m, 0 < kv.2.total_due := by
  intro ps
  induction ps with
  | nil => intro m hm _; exact hm
  | cons p ps ih =>
    intro m hm hp
    simp only [List.foldl_cons]
    apply ih
    · rcases hb : p.2.has_due with _ | _
      · rw [statsStep_skip m p hb]; exact hm
      · rw [statsStep_add m p hb]
        refine forall_val_upsertWith (fun v => 0 < v.total_due) _ _ _ m hm ?_ ?_
        · have h1 := hp p (List.mem_cons_self p ps) hb
          show 0 < 0 + p.2.total_due
          omega
        · intro v hv
          show 0 < v.total_due + p.2.total_due
          omega
    · intro q hq hd
      exact hp q (List.mem_cons_of_mem p hq) hd

theorem dueAt_statsFold (a : String) :
    ∀ (ps : List (String × StudentRecord)) (m : List (String × OverallAcc)),
      dueAt a (ps.foldl statsStep m) =
        dueAt a m +
          (((ps.filter fun p => p.2.student_name == a && p.2.has_due).map
            fun p => p.2.total_due).sum) := by
  intro ps
  induction ps with
  | nil => simp
  | cons p ps ih =>
    intro m
    simp only [List.foldl_cons, ih, List.filter_cons]
    rcases hb : p.2.has_due with _ | _
    · rw [statsStep_skip m p hb]
      simp [hb]
    · by_cases hname : p.2.student_name = a
      · rw [statsStep_add m p hb]
        subst hname
        rw [if_pos (by simp)]
        simp only [List.map_cons, List.sum_cons]
        unfold dueAt
        rw [lookupA_upsertWith_self]
        rcases hl : lookupA p.2.student_name m with _ | v <;>
          (simp [hl, statsAdd]; try omega)
      · rw [statsStep_add m p hb]
        rw [if_neg (by simp [beq_iff_eq, hname])]
        unfold dueAt
        rw [lookupA_upsertWith_ne _ _ _ _ _ hname]

theorem compAt_statsFold (a : String) :
    ∀ (ps : List (String × StudentRecord)) (m : List (String × OverallAcc)),
      compAt a (ps.foldl statsStep m) =
        compAt a m +
          (((ps.filter fun p => p.2.student_name == a && p.2.has_due).map
            fun p => p.2.completed).sum) := by
  intro ps
  induction ps with
  | nil => simp
  | cons p ps ih =>
    intro m
    simp only [List.foldl_cons, ih, List.filter_cons]
    rcases hb : p.2.has_due with _ | _
    · rw [statsStep_skip m p hb]
      simp [hb]
    · by_cases hname : p.2.student_name = a
      · rw [statsStep_add m p hb]
        subst hname
        rw [if_pos (by simp)]
        simp only [List.map_cons, List.sum_cons]
        unfold compAt
        rw [lookupA_upsertWith_self]
        rcases hl : lookupA p.2.student_name m with _ | v <;>
          (simp [hl, statsAdd]; try omega)
      · rw [statsStep_add m p hb]
        rw [if_neg (by simp [beq_iff_eq, hname])]
        unfold compAt
        rw [lookupA_upsertWith_ne _ _ _ _ _ hname]

theorem sumCounts_bandFold :
    ∀ (stats : List (String × OverallStats)) (bc : List (String × Nat)),
      (∀ e ∈ stats, e.2.overall_band ≠ "N/A") →
      sumCounts (stats.foldl bandCountStep bc) = sumCounts bc + stats.length := by
  intro stats
  induction stats with
  | nil => intro bc _; simp
  | cons e stats ih =>
    intro bc h
    simp only [List.foldl_cons, List.length_cons]
    rw [ih _ (fun q hq => h q (List.mem_cons_of_mem e hq))]
    have hne := h e (List.mem_cons_self e stats)
    unfold bandCountStep
    rw [if_neg hne, sumCounts_upsertWith]
    omega

theorem keysOf_map_finalize (m : List (String × OverallAcc)) :
    keysOf (m.map fun p => (p.1, finalizeOverall p.2)) = keysOf m := by
  induction m with
  | nil => rfl
  | cons kv rest ih => simp only [keysOf, List.map_cons] at *; rw [ih]

theorem lookupA_map_finalize (a : String) (m : List (String × OverallAcc)) :
    lookupA a (m.map fun p => (p.1, finalizeOverall p.2)) =
      (lookupA a m).map finalizeOverall := by
  induction m with
  | nil => rfl
  | cons kv rest ih =>
    obtain ⟨k, v⟩ := kv
    by_cases h : k = a <;> simp [lookupA, h, ih]

theorem finalizeOverall_total (st : OverallAcc) :
    (finalizeOverall st).total_due = st.total_due ∧
    (finalizeOverall st).total_completed = st.total_completed := by
  unfold finalizeOverall
  split <;> exact ⟨rfl, rfl⟩

theorem finalizeOverall_band (st : OverallAcc) (h : 0 < st.total_due) :
    (finalizeOverall st).overall_band =
      get_band (some (rateCenti st.total_completed st.total_due)) := by
  unfold finalizeOverall
  rw [if_pos h]

theorem exists_batchPairs (all_data : List SheetData) (Q : StudentRecord → Prop) :
    (∃ p ∈ batchPairs all_data, Q p.2) ↔
      ∃ sd ∈ all_data, ∃ r ∈ sd.students, Q r := by
  simp only [batchPairs, List.mem_flatMap, List.mem_map]
  constructor
  · rintro ⟨p, ⟨sd, hsd, r, hr, rfl⟩, hQ⟩
    exact ⟨sd, hsd, r, hr, hQ⟩
  · rintro ⟨sd, hsd, r, hr, hQ⟩
    exact ⟨(sd.sheet_name, r), ⟨sd, hsd, r, hr, rfl⟩, hQ⟩

theorem forall_batchPairs (all_data : List SheetData) (Q : StudentRecord → Prop)
    (h : ∀ sd ∈ all_data, ∀ r ∈ sd.students, Q r) :
    ∀ p ∈ batchPairs all_data, Q p.2 := by
  intro p hp
  simp only [batchPairs, List.mem_flatMap, List.mem_map] at hp
  obtain ⟨sd, hsd, r, hr, rfl⟩ := hp
  exact h sd hsd r hr

/-- C1: the school-level band distribution is computed from the per-student
overall facts — one classification per student across all subjects — and,
whenever every eligible record carries a positive denominator (as both
parsers guarantee), the counts over all tiers sum exactly to the size of the
`student_overall` map, whose keys are precisely the distinct students with at
least one eligible (`has_due = true`) record in the batch. -/
theorem weekly_band_distribution_total (all_data : List SheetData)
    (h : ∀ sd ∈ all_data, ∀ r ∈ sd.students, r.has_due = true → 0 < r.total_due) :
    sumCounts (weekly_band_distribution all_data) =
      (calculate_student_overall_stats all_data).length ∧
    (keysOf (calculate_student_overall_stats all_data)).Nodup ∧
    (∀ a, a ∈ keysOf (calculate_student_overall_stats all_data) ↔
      ∃ sd ∈ all_data, ∃ r ∈ sd.students, r.student_name = a ∧ r.has_due = true) := by
  have hacc : ∀ kv ∈ (batchPairs all_data).foldl statsStep [], 0 < kv.2.total_due := by
    apply pos_statsFold _ [] (by simp)
    exact forall_batchPairs all_data (fun r => r.has_due = true → 0 < r.total_due) h
  have hstats : ∀ e ∈ calculate_student_overall_stats all_data,
      e.2.overall_band ≠ "N/A" := by
    rw [calc_overall_eq]
    intro e he
    obtain ⟨q, hq, rfl⟩ := List.mem_map.mp he
    have hpos := hacc q hq
    rw [show (q.1, finalizeOverall q.2).2 = finalizeOverall q.2 from rfl,
      finalizeOverall_band q.2 hpos]
    intro hcontra
    exact na_not_mem_BAND_LABELS (hcontra ▸ get_band_mem _)
  refine ⟨?_, ?_, ?_⟩
  · unfold weekly_band_distribution
    rw [sumCounts_bandFold _ [] hstats]
    simp [sumCounts]
  · rw [calc_overall_eq, keysOf_map_finalize]
    exact nodup_keysOf_statsFold _ [] (by simp [keysOf])
  · intro a
    rw [calc_overall_eq, keysOf_map_finalize, mem_keysOf_statsFold]
    rw [show (a ∈ keysOf ([] : List (String × OverallAcc))) = False by simp [keysOf]]
    rw [false_or]
    exact exists_batchPairs all_data (fun r => r.student_name = a ∧ r.has_due = true)

/-- Witness for C1 at the two-sheet fixture batch. -/
theorem weekly_band_distribution_total_witness :
    sumCounts (weekly_band_distribution mathScienceBatch) =
      (calculate_student_overall_stats mathScienceBatch).length :=
  (weekly_band_distribution_total mathScienceBatch (by decide)).1

/-- C5: the `student_overall` map has exactly one entry per student name with
at least one eligible (`has_due = true`) record anywhere in the batch — a
student with no eligible record has no entry at all — its `total_due` and
`total_completed` are the sums over all of that student's eligible records
across every sheet, and on the two-sheet fixture (1 of 1 due in "Math", 2 of
2 due in "Science") it holds exactly one entry with `total_due = 3`,
`total_completed = 3` and overall rate 100.00 percent. -/
theorem student_overall_spec :
    (∀ all_data a, a ∈ keysOf (calculate_student_overall_stats all_data) ↔
       ∃ sd ∈ all_data, ∃ r ∈ sd.students, r.student_name = a ∧ r.has_due = true) ∧
    (∀ all_data, (keysOf (calculate_student_overall_stats all_data)).Nodup) ∧
    (∀ all_data a st, lookupA a (calculate_student_overall_stats all_data) = some st →
       st.total_due =
         (((batchPairs all_data).filter fun p => p.2.student_name == a && p.2.has_due).map
            fun p => p.2.total_due).sum ∧
       st.total_completed =
         (((batchPairs all_data).filter fun p => p.2.student_name == a && p.2.has_due).map
            fun p => p.2.completed).sum) ∧
    calculate_student_overall_stats mathScienceBatch = [("طالب", mathScienceOverall)] := by
  refine ⟨?_, ?_, ?_, by decide⟩
  · intro all_data a
    rw [calc_overall_eq, keysOf_map_finalize, mem_keysOf_statsFold]
    rw [show (a ∈ keysOf ([] : List (String × OverallAcc))) = False by simp [keysOf]]
    rw [false_or]
    exact exists_batchPairs all_data (fun r => r.student_name = a ∧ r.has_due = true)
  · intro all_data
    rw [calc_overall_eq, keysOf_map_finalize]
    exact nodup_keysOf_statsFold _ [] (by simp [keysOf])
  · intro all_data a st hst
    rw [calc_overall_eq, lookupA_map_finalize] at hst
    rcases hl : lookupA a ((batchPairs all_data).foldl statsStep []) with _ | v
    · rw [hl] at hst; cases hst
    · rw [hl] at hst
      have hfin : finalizeOverall v = st := by
        simpa using hst
      have hv : dueAt a ((batchPairs all_data).foldl statsStep []) = v.total_due := by
        unfold dueAt
        rw [hl]
        rfl
      have hc : compAt a ((batchPairs all_data).foldl statsStep []) = v.total_completed := by
        unfold compAt
        rw [hl]
        rfl
      constructor
      · rw [← hfin, (finalizeOverall_total v).1]
        have hdue := dueAt_statsFold a (batchPairs all_data) []
        rw [hv] at hdue
        simpa [dueAt, lookupA] using hdue
      · rw [← hfin, (finalizeOverall_total v).2]
        have hcomp := compAt_statsFold a (batchPairs all_data) []
        rw [hc] at hcomp
        simpa [compAt, lookupA] using hcomp

/-- Witness for C5 at the two-sheet fixture batch. -/
theorem student_overall_spec_witness :
    mathScienceOverall.total_due =
      (((batchPairs mathScienceBatch).filter
          fun p => p.2.student_name == "طالب" && p.2.has_due).map
        fun p => p.2.total_due).sum :=
  (student_overall_spec.2.2.1 mathScienceBatch "طالب" mathScienceOverall (by decide)).1

/-- C2 (amended): every record produced by `parse_excel_file` satisfies
`completed + not_submitted = total_due` whenever `has_due` is true; in
`parse_lms_excel` only `completed + not_submitted ≤ total_due` holds, since
blank and invalid cells enter the denominator without incrementing either
counter. -/
theorem ingest_counts_invariant :
    (∀ (today : Int) (sheets : List NamedSheet),
      ∀ sd ∈ (parse_excel_file_model today sheets).1, ∀ r ∈ sd.students,
        r.has_due = true → r.completed + r.not_submitted = r.total_due) ∧
    (∀ (today : Int) (start_date : Option Int) (sheets : List NamedSheet),
      ∀ sd ∈ (parse_lms_excel_model today start_date sheets).1, ∀ r ∈ sd.students,
        r.has_due = true → r.completed + r.not_submitted ≤ r.total_due) := by
  constructor
  · intro today sheets sd hsd r hr _
    exact parse_excel_prop (fun r => r.completed + r.not_submitted = r.total_due)
      (fun t c s row r h => ingProcessRow_sum t c s row r h) today sheets sd hsd r hr
  · intro today start_date sheets sd hsd r hr _
    exact parse_lms_prop (fun r => r.completed + r.not_submitted ≤ r.total_due)
      (fun t s c row r h => lmsProcessRow_sum t s c row r h) today start_date sheets sd hsd r hr

/-- Witness for C2 (amended) at the M/I fixture sheet. -/
theorem ingest_counts_invariant_witness :
    miRecord.completed + miRecord.not_submitted = miRecord.total_due :=
  ingest_counts_invariant.1 0 [miSheet] miSheetData (by decide) miRecord
    (by decide) (by decide)

/-- Counterexample to C2 as stated: `parse_lms_excel` on a sheet whose only
eligible cell is blank yields a record with `has_due = true` and
`completed + not_submitted = 0 ≠ 1 = total_due`. -/
theorem lms_counts_counterexample :
    ∃ sd ∈ (parse_lms_excel_model 0 none [lmsBlankSheet]).1,
      ∃ r ∈ sd.students, r.has_due = true ∧
        r.completed + r.not_submitted ≠ r.total_due := by decide

/-- C3 evaluated at the failing input (§8 scenario 2): for one student with
two columns both due before the cutoff holding "M" and "I",
`parse_excel_file` counts the excluded token "I" **inside** the denominator
as not submitted (`total_due = 2`, `not_submitted = 2`), while the
denominator-exclusion semantics the claim states holds only in
`filter_by_date_range`, which on the same record yields `total_due = 1`,
`completed = 0`, `not_submitted = 1`, rate 0. -/
theorem excluded_token_counted_eval :
    (parse_excel_file_model 0 [miSheet]).1 = [miSheetData] ∧
    miRecord.total_due = 2 ∧ miRecord.completed = 0 ∧
    miRecord.not_submitted = 2 ∧ miRecord.completion_rate = 0 ∧
    miRecord.has_due = true ∧
    ¬ (miRecord.total_due = 1 ∧ miRecord.not_submitted = 1) ∧
    filter_by_date_range [miSheetData] none (some 0) =
      [⟨"Math 03/1", [⟨"أحمد", 1, 0, 1, 0, true, miDetails⟩]⟩] := by decide

/-- C4: `get_band` maps every two-decimal completion rate in [0, 100] to
exactly one of the six pairwise-distinct tier labels using inclusive lower
bounds evaluated highest-first (90.00 lands in the highest tier
"البلاتينية", 89.99 in the second tier "الذهبية", 0.00 in the lowest tier
"لا يستفيد من النظام"), and a null rate maps to the sentinel "N/A", which is
none of the six tiers. -/
theorem get_band_spec :
    (∀ x : Int, 0 ≤ x → x ≤ pct 100 → get_band (some x) ∈ BAND_LABELS) ∧
    BAND_LABELS.Nodup ∧ BAND_LABELS.length = 6 ∧
    get_band (some (pct 90)) = "البلاتينية" ∧
    get_band (some 8999) = "الذهبية" ∧
    get_band (some 0) = "لا يستفيد من النظام" ∧
    get_band none = "N/A" ∧
    "N/A" ∉ BAND_LABELS := by
  refine ⟨fun x _ _ => get_band_mem x, ?_, ?_, ?_, ?_, ?_, ?_, ?_⟩ <;> decide

/-- Witness for C4 at the mid-range rate 50.00 percent. -/
theorem get_band_spec_witness : get_band (some (pct 50)) ∈ BAND_LABELS :=
  get_band_spec.1 (pct 50) (by decide) (by decide)

theorem ingCellStep_none (today : Int) (row : List RawCell) (acc : CountAcc)
    (a : AssessmentCol) (hdue : a.due_date = none) :
    ingCellStep today row acc a = acc := by
  unfold ingCellStep
  rw [hdue]

theorem ingCellStep_late (today : Int) (row : List RawCell) (acc : CountAcc)
    (a : AssessmentCol) (d : Int) (hdue : a.due_date = some d) (h : today < d) :
    ingCellStep today row acc a = acc := by
  unfold ingCellStep
  rw [hdue]
  dsimp only
  rw [if_pos h]

theorem ingCellStep_total (today : Int) (row : List RawCell) (acc : CountAcc)
    (a : AssessmentCol) (d : Int) (hdue : a.due_date = some d) (h : ¬ today < d) :
    (ingCellStep today row acc a).total_due = acc.total_due + 1 := by
  unfold ingCellStep
  rw [hdue]
  dsimp only
  rw [if_neg h]
  split_ifs <;> rfl

theorem lmsCellStep_none (today : Int) (start_date : Option Int) (row : List RawCell)
    (acc : LmsAcc) (a : AssessmentCol) (hdue : a.due_date = none) :
    lmsCellStep today start_date row acc a = acc := by
  unfold lmsCellStep
  rw [hdue]

theorem lmsCellStep_late (today : Int) (start_date : Option Int) (row : List RawCell)
    (acc : LmsAcc) (a : AssessmentCol) (d : Int) (hdue : a.due_date = some d)
    (h : today < d) :
    lmsCellStep today start_date row acc a = acc := by
  unfold lmsCellStep
  rw [hdue]
  dsimp only
  rw [if_pos h]

theorem lmsCellStep_window (today : Int) (start_date : Option Int) (row : List RawCell)
    (acc : LmsAcc) (a : AssessmentCol) (d : Int) (hdue : a.due_date = some d)
    (h : ¬ today < d)
    (hskip : start_date.elim false (fun sd => decide (d < sd)) = true) :
    lmsCellStep today start_date row acc a = acc := by
  unfold lmsCellStep
  rw [hdue]
  dsimp only
  rw [if_neg h, if_pos hskip]

theorem lmsCellStep_total (today : Int) (start_date : Option Int) (row : List RawCell)
    (acc : LmsAcc) (a : AssessmentCol) (d : Int) (hdue : a.due_date = some d)
    (h : ¬ today < d)
    (hskip : start_date.elim false (fun sd => decide (d < sd)) = false) :
    (lmsCellStep today start_date row acc a).total_due = acc.total_due + 1 := by
  unfold lmsCellStep
  rw [hdue]
  dsimp only
  rw [if_neg h, if_neg (by simp [hskip])]
  dsimp only
  split_ifs <;> (try split) <;> (try split_ifs) <;> rfl

/-- C7: a cell contributes to the denominator exactly when the column's due
date parsed (`some`), is at most the cutoff, and at least the window start
when one is configured; otherwise the cell loop leaves the counters (and
detail list) untouched — stated for the windowed LMS loop and for the
`parse_excel_file` loop (which has no window, `start_date = none`). -/
theorem denominator_iff_eligible :
    ∀ (today : Int) (start_date : Option Int) (row : List RawCell)
      (lacc : LmsAcc) (iacc : CountAcc) (a : AssessmentCol),
      ((lmsCellStep today start_date row lacc a).total_due = lacc.total_due + 1 ↔
        eligibleSpec today start_date a.due_date) ∧
      (¬ eligibleSpec today start_date a.due_date →
        lmsCellStep today start_date row lacc a = lacc) ∧
      ((ingCellStep today row iacc a).total_due = iacc.total_due + 1 ↔
        eligibleSpec today none a.due_date) ∧
      (¬ eligibleSpec today none a.due_date → ingCellStep today row iacc a = iacc) := by
  intro today start_date row lacc iacc a
  rcases hdue : a.due_date with _ | d
  · have he : ∀ sd' : Option Int, ¬ eligibleSpec today sd' none := by
      simp [eligibleSpec]
    rw [lmsCellStep_none today start_date row lacc a hdue,
      ingCellStep_none today row iacc a hdue]
    exact ⟨iff_of_false (by omega) (he _), fun _ => rfl,
      iff_of_false (by omega) (he _), fun _ => rfl⟩
  · by_cases hlt : today < d
    · have he : ∀ sd' : Option Int, ¬ eligibleSpec today sd' (some d) := by
        rintro sd' ⟨e, he1, he2, -⟩
        cases he1
        omega
      rw [lmsCellStep_late today start_date row lacc a d hdue hlt,
        ingCellStep_late today row iacc a d hdue hlt]
      exact ⟨iff_of_false (by omega) (he _), fun _ => rfl,
        iff_of_false (by omega) (he _), fun _ => rfl⟩
    · have hing : eligibleSpec today none (some d) :=
        ⟨d, rfl, by omega, fun s h => by cases h⟩
      refine ⟨?_, ?_, iff_of_true (ingCellStep_total today row iacc a d hdue hlt) hing,
        fun h => absurd hing h⟩
      · rcases hsk : start_date.elim false (fun sd => decide (d < sd)) with _ | _
        · have hl : eligibleSpec today start_date (some d) := by
            refine ⟨d, rfl, by omega, fun s hs => ?_⟩
            rw [hs] at hsk
            simp at hsk
            omega
          exact iff_of_true (lmsCellStep_total today start_date row lacc a d hdue hlt hsk) hl
        · have hnl : ¬ eligibleSpec today start_date (some d) := by
            rintro ⟨e, he1, -, he3⟩
            cases he1
            rcases hsd : start_date with _ | s
            · rw [hsd] at hsk; simp at hsk
            · rw [hsd] at hsk
              simp only [Option.elim_some, decide_eq_true_eq] at hsk
              have := he3 s hsd
              omega
          rw [lmsCellStep_window today start_date row lacc a d hdue hlt hsk]
          exact iff_of_false (by omega) hnl
      · intro h
        rcases hsk : start_date.elim false (fun sd => decide (d < sd)) with _ | _
        · exfalso
          apply h
          refine ⟨d, rfl, by omega, fun s hs => ?_⟩
          rw [hs] at hsk
          simp at hsk
          omega
        · exact lmsCellStep_window today start_date row lacc a d hdue hlt hsk

/-- Witness for C7: an eligible cell (due on the cutoff day, no window)
increments the denominator. -/
theorem denominator_iff_eligible_witness :
    (ingCellStep 0 [numCell 7500 "75"] ⟨0, 0, 0, []⟩ ⟨0, "A", some 0⟩).total_due =
      (⟨0, 0, 0, []⟩ : CountAcc).total_due + 1 :=
  (denominator_iff_eligible 0 none [numCell 7500 "75"] ⟨0, 0, 0, []⟩
      ⟨0, 0, 0, []⟩ ⟨0, "A", some 0⟩).2.2.1.mpr
    ⟨0, rfl, by omega, fun s hs => by cases hs⟩

/-- C6 (amended): in `parse_excel_file` every eligible non-blank cell whose
value is not a sentinel token counts as completed, numeric or free text; in
`parse_lms_excel` such a cell still enters the denominator but counts as
completed only when it parses as a number within [0, 100] — any other
non-blank, non-sentinel value is recorded `invalid` and increments neither
counter. -/
theorem completed_classification :
    (∀ (today : Int) (row : List RawCell) (acc : CountAcc) (a : AssessmentCol)
      (due : Int), a.due_date = some due → due ≤ today →
      (cellIn row a.col_idx).isNa = false →
      pyUpper (pyStrip (cellIn row a.col_idx).text) ∉ sentinel_tokens →
      (ingCellStep today row acc a).completed = acc.completed + 1) ∧
    (∀ (today : Int) (start_date : Option Int) (row : List RawCell) (acc : LmsAcc)
      (a : AssessmentCol) (due : Int), a.due_date = some due → due ≤ today →
      start_date.elim false (fun sd => decide (due < sd)) = false →
      (cellIn row a.col_idx).isNa = false →
      pyStrip (cellIn row a.col_idx).text ∉ (["", "-"] : List String) →
      pyUpper (cellIn row a.col_idx).text ∉ sentinel_tokens →
      (lmsCellStep today start_date row acc a).total_due = acc.total_due + 1 ∧
      (lmsCellStep today start_date row acc a).completed =
        acc.completed + (match (cellIn row a.col_idx).asNum with
          | some score => if 0 ≤ score ∧ score ≤ pct 100 then 1 else 0
          | none => 0)) := by
  constructor
  · intro today row acc a due hdue hle hna htok
    unfold ingCellStep
    rw [hdue]
    dsimp only
    rw [if_neg (by omega), if_neg (by simp [hna]), if_neg htok]
  · intro today start_date row acc a due hdue hle hskip hna hblank htok
    refine ⟨lmsCellStep_total today start_date row acc a due hdue (by omega) hskip, ?_⟩
    unfold lmsCellStep
    rw [hdue]
    dsimp only
    rw [if_neg (by omega), if_neg (by simp [hskip]),
      if_neg (by simp [hna, hblank]), if_neg htok]
    rcases hnum : (cellIn row a.col_idx).asNum with _ | v
    · rfl
    · dsimp only
      split_ifs <;> rfl

/-- Witness for C6 (amended): an eligible numeric cell "75" counts as
completed in the `parse_excel_file` loop. -/
theorem completed_classification_witness :
    (ingCellStep 0 [numCell 7500 "75"] ⟨0, 0, 0, []⟩ ⟨0, "A", some 0⟩).completed =
      (⟨0, 0, 0, []⟩ : CountAcc).completed + 1 :=
  completed_classification.1 0 [numCell 7500 "75"] ⟨0, 0, 0, []⟩ ⟨0, "A", some 0⟩ 0
    rfl (by decide) (by decide) (by decide)

/-- Counterexample to C6 as stated: `parse_lms_excel` classifies the
non-blank, non-sentinel free-text value "ممتاز" as `invalid`, not as a
completed submission (`completed = 0` with `total_due = 1`). -/
theorem lms_free_text_counterexample :
    ∃ sd ∈ (parse_lms_excel_model 0 none [lmsTextSheet]).1, ∃ r ∈ sd.students,
      r.total_due = 1 ∧ r.completed = 0 ∧ r.not_submitted = 0 ∧
      r.assessments.map LmsDetail.status = ["invalid"] ∧
      r.assessments.map LmsDetail.value = ["ممتاز"] := by decide

/-- C8 evaluated at the failing input: in `analysis.get_band` a rate of
0.01 percent (and every rate below 1 percent) falls into the same lowest
tier as exactly 0, while `recommendations.get_band_from_percentage`
implements the claimed behaviour — 0 is its own tier, distinct from every
positive rate below the lowest real threshold (40 percent). -/
theorem get_band_zero_tier_eval :
    get_band (some 1) = get_band (some 0) ∧
    get_band (some 1) = "لا يستفيد من النظام" ∧
    get_band (some 99) = "لا يستفيد من النظام" ∧
    get_band_from_percentage (some 1) = "يحتاج إلى تحسين" ∧
    get_band_from_percentage (some 0) = "غير مستفيد" ∧
    (∀ x : Int, 0 < x → x < pct 40 →
      get_band_from_percentage (some x) ≠ get_band_from_percentage (some 0)) := by
  refine ⟨by decide, by decide, by decide, by decide, by decide, ?_⟩
  intro x h1 h2
  simp only [get_band_from_percentage, pct] at *
  split_ifs <;> first | omega | decide

/-- Witness for C8's evaluation theorem at the rate 0.01 percent. -/
theorem get_band_zero_tier_eval_witness :
    get_band_from_percentage (some 1) ≠ get_band_from_percentage (some 0) :=
  get_band_zero_tier_eval.2.2.2.2.2 1 (by decide) (by decide)

/-- C9: a sheet with fewer than 4 rows is rejected by both parsers — it
contributes no sheet facts, a per-sheet warning naming it is emitted, and
the rest of the batch parses exactly as it would without that sheet. -/
theorem short_sheet_skipped :
    ∀ (today : Int) (start_date : Option Int) (s : NamedSheet)
      (rest : List NamedSheet), s.grid.length < 4 →
      parse_excel_file_model today (s :: rest) =
        ((parse_excel_file_model today rest).1,
          insufficientRowsWarning s.sheet_name :: (parse_excel_file_model today rest).2) ∧
      parse_lms_excel_model today start_date (s :: rest) =
        ((parse_lms_excel_model today start_date rest).1,
          tooFewRowsWarning s.sheet_name :: (parse_lms_excel_model today start_date rest).2) := by
  intro today start_date s rest h
  constructor
  · simp only [parse_excel_file_model]
    rw [if_pos (by simp [h])]
  · simp only [parse_lms_excel_model]
    rw [if_pos (by omega)]

/-- Witness for C9 at a concrete 3-row sheet heading a batch. -/
theorem short_sheet_skipped_witness :
    parse_excel_file_model 0 (shortSheet :: [miSheet]) =
      ((parse_excel_file_model 0 [miSheet]).1,
        insufficientRowsWarning shortSheet.sheet_name ::
          (parse_excel_file_model 0 [miSheet]).2) ∧
    parse_lms_excel_model 0 none (shortSheet :: [miSheet]) =
      ((parse_lms_excel_model 0 none [miSheet]).1,
        tooFewRowsWarning shortSheet.sheet_name ::
          (parse_lms_excel_model 0 none [miSheet]).2) :=
  short_sheet_skipped 0 none shortSheet [miSheet] (by decide)

/-- C10: every record either parser emits carries a non-empty student name
(and, for the LMS parser, never the literal header text "Students"), and a
data row whose name cell normalizes to the empty string — or, in the LMS
parser, to "Students" — is skipped without emitting a record. -/
theorem parsed_names_nonempty :
    (∀ (today : Int) (sheets : List NamedSheet),
      ∀ sd ∈ (parse_excel_file_model today sheets).1, ∀ r ∈ sd.students,
        r.student_name ≠ "") ∧
    (∀ (today : Int) (start_date : Option Int) (sheets : List NamedSheet),
      ∀ sd ∈ (parse_lms_excel_model today start_date sheets).1, ∀ r ∈ sd.students,
        r.student_name ≠ "" ∧ r.student_name ≠ "Students") ∧
    (∀ (today : Int) (cols : List AssessmentCol) (scol : Nat) (row : List RawCell),
      normalize_arabic_text (cellIn row scol) = "" →
      ingProcessRow today cols scol row = none) ∧
    (∀ (today : Int) (start_date : Option Int) (cols : List AssessmentCol)
      (row : List RawCell),
      normalize_arabic_text (cellIn row 0) = "" ∨
        normalize_arabic_text (cellIn row 0) = "Students" →
      lmsProcessRow today start_date cols row = none) := by
  refine ⟨?_, ?_, ?_, ?_⟩
  · intro today sheets sd hsd r hr
    refine parse_excel_prop (fun r => r.student_name ≠ "")
      (fun t c s row r h => ?_) today sheets sd hsd r hr
    have hn := ingProcessRow_name t c s row r h
    show r.student_name ≠ ""
    rw [hn.1]
    exact hn.2
  · intro today start_date sheets sd hsd r hr
    refine parse_lms_prop (fun r => r.student_name ≠ "" ∧ r.student_name ≠ "Students")
      (fun t st c row r h => ?_) today start_date sheets sd hsd r hr
    have hn := lmsProcessRow_name t st c row r h
    exact ⟨hn.2.1, hn.2.2⟩
  · intro today cols scol row h
    simp [ingProcessRow, h]
  · intro today start_date cols row h
    rcases h with h | h <;> simp [lmsProcessRow, h]

/-- Witness for C10: a row whose name cell is missing yields no record. -/
theorem parsed_names_nonempty_witness :
    ingProcessRow 0 [] 0 [naCell] = none :=
  parsed_names_nonempty.2.2.1 0 [] 0 [naCell] (by decide)
